import Mathlib

/-!
Verification of the VeloLink bus hub (custom_components/velolink/hub.py).

This file gives a shallow embedding of the hub's frame codec, the serial and
TCP link framers, the node registry and the subscription/event dispatch, and
proves or refutes the frozen specification claims about them.  Machine bytes
are modelled as `Nat` values; byte masking (`x & 0xFF`) is written `x % 256`,
and fallible byte access is an `Except`.  Python `str` fields produced by
`bytes.decode(..., errors="ignore")` are kept as the raw byte slices
(`List Nat`), since no claim inspects the decoded text.
-/

deriving instance DecidableEq for Except

namespace Velolink

/-! ### Function codes (const.py, class FunctionCode) -/

namespace FunctionCode

def DISCOVER : Nat := 0x01
def HELLO : Nat := 0x02
def READ_INPUTS : Nat := 0x03
def SET_OUTPUT : Nat := 0x10
def SET_PWM : Nat := 0x11
def INPUT_CHANGE : Nat := 0x20
def OUTPUT_STATE : Nat := 0x21
def PWM_STATE : Nat := 0x22
def ANALOG_SAMPLE : Nat := 0x23
def BUTTON_EVENT : Nat := 0x24
def ENCODER_EVENT : Nat := 0x25

end FunctionCode

/-! ### CRC16 (hub.py, `VelolinkHub._crc16_value` and `TcpTransport._crc16`,
    identical code): `crc = (crc >> 1) ^ 0xA001 if crc & 1 else crc >> 1`,
    eight rounds per byte, initial value 0xFFFF. -/

/-- One inner round of the CRC16 loop. -/
def crc_step (crc : Nat) : Nat :=
  if crc &&& 1 = 1 then (crc >>> 1) ^^^ 0xA001 else crc >>> 1

/-- Iterate `crc_step` `n` times (the source runs it 8 times per byte). -/
def crc_rounds : Nat → Nat → Nat
  | 0, crc => crc
  | n + 1, crc => crc_rounds n (crc_step crc)

/-- CRC16 of a byte string: fold of `crc ^= b` then eight shift rounds. -/
def crc16_value (data : List Nat) : Nat :=
  data.foldl (fun crc b => crc_rounds 8 (crc ^^^ b)) 0xFFFF

/-- Little-endian 2-byte encoding, `crc.to_bytes(2, "little")`
    (the CRC is always below 2^16, see `crc16_value_lt`). -/
def crcLE (c : Nat) : List Nat := [c % 256, c / 256]

/-! ### Frame builder (hub.py, `VelolinkHub._build_frame`) -/

/-- Build an RS485 frame:
    `pre ++ [addr & 0xFF, func & 0xFF, seq=0, len & 0xFF] ++ payload ++ crc`. -/
def build_frame (addr func : Nat) (payload : List Nat) : List Nat :=
  let pre : List Nat := [0xAA, 0x55]
  let body : List Nat := [addr % 256, func % 256, 0, payload.length % 256] ++ payload
  let crc := crc16_value body
  pre ++ body ++ crcLE crc

/-- Frame written by `VelolinkHub.async_set_output`:
    payload `[ch & 0xFF, 1 if on else 0]`, function SET_OUTPUT. -/
def async_set_output (addr ch : Nat) (isOn : Bool) : List Nat :=
  build_frame addr FunctionCode.SET_OUTPUT [ch % 256, if isOn then 1 else 0]

/-- Frame written by `VelolinkHub.async_set_pwm`: value clamped to 0..255,
    payload `[ch & 0xFF, value & 0xFF]`, function SET_PWM. -/
def async_set_pwm (addr ch value : Nat) : List Nat :=
  build_frame addr FunctionCode.SET_PWM [ch % 256, (min 255 value) % 256]

/-! ### Frame parser (hub.py, `VelolinkHub._parse_frame`) -/

/-- Fallible byte access `data[i]`; Python raises IndexError out of range. -/
def byteAt (data : List Nat) (i : Nat) : Except String Nat :=
  match data.get? i with
  | some b => Except.ok b
  | none => Except.error "index out of range"

/-- Decoded frame, tagged by message type (the dict returned by
    `_parse_frame`).  Version strings are rendered as in the source;
    model/serial/area are kept as raw byte slices. -/
inductive ParsedFrame where
  | hello (addr : Nat) (kind : String) (channels capabilities : Nat)
      (hw_version sw_version : String)
      (model serial_number area : Option (List Nat))
  | inputChange (addr ch value : Nat)
  | outputState (addr ch value : Nat)
  | pwmState (addr ch value : Nat)
  | analogSample (addr ch raw : Nat)
  | buttonEvent (addr ch : Nat) (pressed : Bool)
  | encoderEvent (addr ch : Nat) (delta : Int)
  deriving DecidableEq, Repr

/-- The `kind_map` lookup table with default "unknown". -/
def kind_map (code : Nat) : String :=
  if code = 0x00 then "input"
  else if code = 0x01 then "output"
  else if code = 0x02 then "pwm"
  else if code = 0x03 then "analog"
  else if code = 0x0A then "veloswitch"
  else if code = 0x0B then "velodimmer"
  else if code = 0x0C then "velomotion"
  else if code = 0x0D then "velosensor"
  else "unknown"

/-- One optional length-prefixed string of the HELLO payload: returns the
    raw bytes (if fully present) and the offset after the read, mirroring
    the guarded reads in `_parse_frame`. -/
def readOptStr (p : List Nat) (off : Nat) : Option (List Nat) × Nat :=
  if off < p.length then
    let len := p.getD off 0
    let off1 := off + 1
    if off1 + len ≤ p.length then (some ((p.drop off1).take len), off1 + len)
    else (none, off1)
  else (none, off)

/-- HELLO payload decoding (`_parse_frame`, HELLO Extended branch). -/
def parse_hello (addr : Nat) (payload : List Nat) : Except String ParsedFrame :=
  if payload.length < 8 then Except.error "HELLO too short"
  else
    let kind := kind_map (payload.getD 0 0)
    let channels := payload.getD 1 0
    let capabilities := payload.getD 2 0
    let hw_ver := toString (payload.getD 3 0) ++ "." ++ toString (payload.getD 4 0)
    let sw_ver := toString (payload.getD 5 0) ++ "." ++ toString (payload.getD 6 0)
      ++ "." ++ toString (payload.getD 7 0)
    let m := readOptStr payload 8
    let s := readOptStr payload m.2
    let a := readOptStr payload s.2
    Except.ok (.hello addr kind channels capabilities hw_ver sw_ver m.1 s.1 a.1)

/-- Signed 8-bit read, `int.from_bytes([b], "little", signed=True)`. -/
def toSigned8 (b : Nat) : Int :=
  if b < 128 then (b : Int) else (b : Int) - 256

/-- Structural stage of `_parse_frame` (lines 537-553): preamble, declared
    length and CRC checks, then the raw (addr, func, payload) fields. -/
def structural_parse (frame : List Nat) : Except String (Nat × Nat × List Nat) :=
  if frame.length < 8 ∨ frame.getD 0 0 ≠ 0xAA ∨ frame.getD 1 0 ≠ 0x55 then
    Except.error "bad preamble"
  else if frame.length ≠ 6 + frame.getD 5 0 + 2 then
    Except.error "length mismatch"
  else if frame.getD (frame.length - 2) 0 ||| (frame.getD (frame.length - 1) 0 <<< 8)
      ≠ crc16_value ((frame.drop 2).take (frame.length - 4)) then
    Except.error "CRC error"
  else
    Except.ok (frame.getD 2 0, frame.getD 3 0, (frame.drop 6).take (frame.getD 5 0))

/-- Function dispatch of `_parse_frame` (lines 556-623). -/
def parse_dispatch (addr func : Nat) (payload : List Nat) : Except String ParsedFrame :=
  if func = FunctionCode.HELLO then parse_hello addr payload
  else if func = FunctionCode.INPUT_CHANGE then do
    let ch ← byteAt payload 0
    let v ← byteAt payload 1
    Except.ok (.inputChange addr ch v)
  else if func = FunctionCode.OUTPUT_STATE then do
    let ch ← byteAt payload 0
    let v ← byteAt payload 1
    Except.ok (.outputState addr ch v)
  else if func = FunctionCode.PWM_STATE then do
    let ch ← byteAt payload 0
    let v ← byteAt payload 1
    Except.ok (.pwmState addr ch v)
  else if func = FunctionCode.ANALOG_SAMPLE then do
    let raw ←
      if 3 ≤ payload.length then do
        let lo ← byteAt payload 1
        let hi ← byteAt payload 2
        Except.ok (lo ||| (hi <<< 8))
      else Except.ok 0
    let ch ← byteAt payload 0
    Except.ok (.analogSample addr ch raw)
  else if func = FunctionCode.BUTTON_EVENT then do
    let ch ← byteAt payload 0
    let p ← byteAt payload 1
    Except.ok (.buttonEvent addr ch (p != 0))
  else if func = FunctionCode.ENCODER_EVENT then do
    let ch ← byteAt payload 0
    let d ← byteAt payload 1
    Except.ok (.encoderEvent addr ch (toSigned8 d))
  else Except.error "unknown func"

/-- Full `_parse_frame`: structural validation then function dispatch. -/
def parse_frame (frame : List Nat) : Except String ParsedFrame := do
  let t ← structural_parse frame
  parse_dispatch t.1 t.2.1 t.2.2

/-! ### Direct-link framer (hub.py, `_SerialProtocol`) -/

/-- `_SerialProtocol._extract_one_frame`: scan for the AA 55 preamble,
    popping one leading byte at a time while at least 8 bytes remain; on a
    match read LENGTH at offset 5 and slice out `6 + length + 2` bytes, or
    wait for more data. Returns the extracted frame (if any) and the
    remaining buffer. -/
def extract_one_frame : List Nat → Option (List Nat) × List Nat
  | [] => (none, [])
  | b :: rest =>
    if (b :: rest).length < 8 then (none, b :: rest)
    else if b = 0xAA ∧ rest.getD 0 0 = 0x55 then
      if (b :: rest).length < 6 + (b :: rest).getD 5 0 + 2 then (none, b :: rest)
      else (some ((b :: rest).take (6 + (b :: rest).getD 5 0 + 2)),
        (b :: rest).drop (6 + (b :: rest).getD 5 0 + 2))
    else extract_one_frame rest

/-- The extraction loop of `_SerialProtocol.data_received`, drained to a
    fixpoint.  Fuel-indexed; each successful extraction removes at least
    8 bytes, so fuel `buf.length` always suffices (`drain_frames_aux_congr`). -/
def drain_frames_aux : Nat → List Nat → List (List Nat) × List Nat
  | 0, buf => ([], buf)
  | fuel + 1, buf =>
    match extract_one_frame buf with
    | (none, b) => ([], b)
    | (some f, b) =>
      let r := drain_frames_aux fuel b
      (f :: r.1, r.2)

/-- Frames extracted from a buffer, with the residual buffer. -/
def drain_frames (buf : List Nat) : List (List Nat) × List Nat :=
  drain_frames_aux buf.length buf

/-- `_SerialProtocol.data_received`: append the chunk, drain complete
    frames, then clear the buffer if more than 512 bytes remain. -/
def data_received (buffer data : List Nat) : List (List Nat) × List Nat :=
  if 512 < (drain_frames (buffer ++ data)).2.length then
    ((drain_frames (buffer ++ data)).1, [])
  else ((drain_frames (buffer ++ data)).1, (drain_frames (buffer ++ data)).2)

/-! ### Tunneled/gateway framer (hub.py, `TcpTransport`) -/

/-- `TcpTransport._extract_tcp_packet`: magic 56 4C, 16-bit little-endian
    LENGTH at offsets 4-5, total envelope `6 + frame_len + 2`. -/
def extract_tcp_packet : List Nat → Option (List Nat) × List Nat
  | [] => (none, [])
  | b :: rest =>
    if (b :: rest).length < 8 then (none, b :: rest)
    else if b = 0x56 ∧ rest.getD 0 0 = 0x4C then
      if (b :: rest).length
          < 6 + ((b :: rest).getD 4 0 ||| ((b :: rest).getD 5 0 <<< 8)) + 2 then
        (none, b :: rest)
      else
        (some ((b :: rest).take (6 + ((b :: rest).getD 4 0 ||| ((b :: rest).getD 5 0 <<< 8)) + 2)),
          (b :: rest).drop (6 + ((b :: rest).getD 4 0 ||| ((b :: rest).getD 5 0 <<< 8)) + 2))
    else extract_tcp_packet rest

/-- Inner-frame slice of `TcpTransport._read_loop`:
    `rs485_frame = packet[6:6+frame_len]`. -/
def tcp_inner (packet : List Nat) : List Nat :=
  (packet.drop 6).take (packet.getD 4 0 ||| (packet.getD 5 0 <<< 8))

/-- The per-chunk extraction loop of `_read_loop`: every extracted envelope
    has its inner frame delivered to the frame callback.  Fuel-indexed as
    for `drain_frames_aux`. -/
def tcp_drain_aux : Nat → List Nat → List (List Nat) × List Nat
  | 0, buf => ([], buf)
  | fuel + 1, buf =>
    match extract_tcp_packet buf with
    | (none, b) => ([], b)
    | (some p, b) =>
      let r := tcp_drain_aux fuel b
      (tcp_inner p :: r.1, r.2)

/-- Inner frames delivered from a TCP buffer, with the residual buffer. -/
def tcp_drain (buf : List Nat) : List (List Nat) × List Nat :=
  tcp_drain_aux buf.length buf

/-- `TcpTransport.async_write_frame`: wrap a frame in the outer envelope
    `56 4C | VER=01 | BUS | LEN(2, LE) | frame | CRC16(LE)`, CRC over
    magic through the inner frame. -/
def write_tcp_packet (bus_id : String) (frame : List Nat) : List Nat :=
  ([0x56, 0x4C, 0x01, if bus_id = "bus1" then 0x01 else 0x02]
      ++ [frame.length % 256, frame.length / 256] ++ frame)
    ++ crcLE (crc16_value
        ([0x56, 0x4C, 0x01, if bus_id = "bus1" then 0x01 else 0x02]
          ++ [frame.length % 256, frame.length / 256] ++ frame))

/-! ### Node registry (hub.py, `VelolinkNode`, `_register_node`, `get_node`).
    The Python dict is modelled as an insertion-ordered association list:
    assignment to an existing key replaces its value in place, assignment
    to a fresh key appends. -/

/-- The `VelolinkNode` dataclass. -/
structure VelolinkNode where
  bus_id : String
  address : Nat
  kind : String
  channels : Nat
  capabilities : Nat := 0
  sw_version : Option String := none
  hw_version : Option String := none
  manufacturer : String := "Velolink"
  model : Option (List Nat) := none
  serial_number : Option (List Nat) := none
  name : Option String := none
  suggested_area : Option (List Nat) := none
  deriving DecidableEq, Repr

/-- Node registry: `self._nodes`, keyed by `(bus_id, address)`. -/
abbrev NodeReg := List ((String × Nat) × VelolinkNode)

/-- Python `key in self._nodes`. -/
def contains_key (reg : NodeReg) (k : String × Nat) : Bool :=
  reg.any (fun e => decide (e.1 = k))

/-- Python `self._nodes[key] = node` on a present key (value replaced,
    position kept). -/
def set_key (reg : NodeReg) (k : String × Nat) (v : VelolinkNode) : NodeReg :=
  reg.map (fun e => if e.1 = k then (k, v) else e)

/-- `VelolinkHub._register_node`: overwrite silently when the key exists,
    else insert and emit one new-node notification (the returned list). -/
def register_node (reg : NodeReg) (node : VelolinkNode) : NodeReg × List VelolinkNode :=
  if contains_key reg (node.bus_id, node.address) then
    (set_key reg (node.bus_id, node.address) node, [])
  else (reg ++ [((node.bus_id, node.address), node)], [node])

/-- `VelolinkHub.get_node`: dict lookup by `(bus_id, addr)`. -/
def get_node (reg : NodeReg) (bus : String) (addr : Nat) : Option VelolinkNode :=
  (reg.find? (fun e => decide (e.1 = (bus, addr)))).map (fun e => e.2)

/-! ### Subscriptions and event fan-out (hub.py, `subscribe_*`, `_emit`,
    `_on_frame`) -/

/-- Value passed to a subscriber callback (`bool(...)`, `int(...)` or
    `float(...)` of the parsed field; the float is modelled as `Rat`). -/
inductive EvVal where
  | b (x : Bool)
  | n (x : Nat)
  | i (x : Int)
  | q (x : Rat)
  deriving DecidableEq, Repr

/-- `VelolinkHub._emit`: call every callback registered for the key, in
    list order; a raising callback (`Except.error`) is caught and logged,
    so each entry of the bucket is invoked exactly once regardless of the
    other callbacks' outcomes.  The result list records each invocation. -/
def emit_list (cbs : List (EvVal → Except String Unit)) (v : EvVal) :
    List (Except String Unit) :=
  cbs.map (fun cb => cb v)

/-- Hub state: node registry plus the six per-category subscription
    registries keyed by `(bus_id, addr, channel)`. -/
structure HubState where
  nodes : NodeReg
  subs_input : String × Nat × Nat → List (EvVal → Except String Unit)
  subs_output : String × Nat × Nat → List (EvVal → Except String Unit)
  subs_pwm : String × Nat × Nat → List (EvVal → Except String Unit)
  subs_analog : String × Nat × Nat → List (EvVal → Except String Unit)
  subs_button : String × Nat × Nat → List (EvVal → Except String Unit)
  subs_encoder : String × Nat × Nat → List (EvVal → Except String Unit)

/-- `VelolinkHub._on_frame`: a parse failure is logged and dropped (state
    unchanged, nothing delivered); HELLO registers a node; every other
    decode is fanned out to the matching registry.  Returns the new state,
    the new-node notifications, and the callback invocation results. -/
def on_frame (st : HubState) (bus : String) (frame : List Nat) :
    HubState × List VelolinkNode × List (Except String Unit) :=
  match parse_frame frame with
  | .error _ => (st, [], [])
  | .ok (.hello addr kind channels caps hw sw model serial area) =>
    let node : VelolinkNode :=
      { bus_id := bus, address := addr, kind := kind, channels := channels,
        capabilities := caps, sw_version := some sw, hw_version := some hw,
        model := model, serial_number := serial, suggested_area := area }
    let r := register_node st.nodes node
    ({ st with nodes := r.1 }, r.2, [])
  | .ok (.inputChange addr ch v) =>
    (st, [], emit_list (st.subs_input (bus, addr, ch)) (.b (v != 0)))
  | .ok (.outputState addr ch v) =>
    (st, [], emit_list (st.subs_output (bus, addr, ch)) (.b (v != 0)))
  | .ok (.pwmState addr ch v) =>
    (st, [], emit_list (st.subs_pwm (bus, addr, ch)) (.n v))
  | .ok (.analogSample addr ch raw) =>
    (st, [], emit_list (st.subs_analog (bus, addr, ch)) (.q ((raw : Rat) / 1000)))
  | .ok (.buttonEvent addr ch pressed) =>
    (st, [], emit_list (st.subs_button (bus, addr, ch)) (.b pressed))
  | .ok (.encoderEvent addr ch delta) =>
    (st, [], emit_list (st.subs_encoder (bus, addr, ch)) (.i delta))

/-- The unsubscribe handle returned by `subscribe_*`, acting on the list
    stored for its key (callbacks identified by Python object identity,
    modelled as `Nat` ids):
    `l.remove(cb) if cb in l else None` — remove the first occurrence when
    present, else do nothing. -/
def unsubscribe (cb : Nat) (l : List Nat) : List Nat :=
  if cb ∈ l then l.erase cb else l

/-! ### Hub startup (hub.py, `VelolinkHub.async_start`).  Transports are
    constructed, started and registered one bus at a time; an unknown
    transport kind raises, leaving the already-registered transports in
    `self._transports`.  The model records the registration table and the
    error outcome. -/

/-- The per-bus loop of `async_start` with the accumulated transport table. -/
def start_buses : List (String × String) → List (String × String) →
    List (String × String) × Option String
  | [], table => (table, none)
  | (bus_id, transport) :: rest, table =>
    if transport = "serial" ∨ transport = "tcp" then
      start_buses rest (table ++ [(bus_id, transport)])
    else (table, some ("Unknown transport: " ++ transport))

/-- `async_start` over the configured buses, beginning with no transports. -/
def async_start (buses : List (String × String)) :
    List (String × String) × Option String :=
  start_buses buses []

/-- Sample node used by concrete witnesses. -/
def sample_node : VelolinkNode :=
  { bus_id := "bus1", address := 3, kind := "input", channels := 2 }

/-- A callback that always raises, and one that always succeeds, used by
    concrete witnesses. -/
def cb_fail : EvVal → Except String Unit := fun _ => Except.error "boom"

/-- A callback that always succeeds. -/
def cb_ok : EvVal → Except String Unit := fun _ => Except.ok ()

/-- Sample hub state with two input subscribers (one raising) registered
    under ("bus1", 1, 5), used by concrete witnesses. -/
def sample_state : HubState :=
  { nodes := []
    subs_input := fun k => if k = ("bus1", 1, 5) then [cb_fail, cb_ok] else []
    subs_output := fun _ => []
    subs_pwm := fun _ => []
    subs_analog := fun _ => []
    subs_button := fun _ => []
    subs_encoder := fun _ => [] }

/-! ### Claim-side predicates (formalised from the specification's words,
    to be compared with the source-derived definitions above) -/

/-- Function codes the decoder recognises (spec section 4.1: HELLO and the
    six event codes; "any other function code fails decode"). -/
def known_func (f : Nat) : Prop :=
  f = 0x02 ∨ f = 0x20 ∨ f = 0x21 ∨ f = 0x22 ∨ f = 0x23 ∨ f = 0x24 ∨ f = 0x25

/-- The decode-failure conditions enumerated by claim C2: shorter than 8
    bytes, preamble mismatch, declared LENGTH plus the 8-byte overhead
    differing from the frame length, CRC16 differing from the trailing two
    little-endian bytes, or an unknown function code. -/
def decode_fail_listed (frame : List Nat) : Prop :=
  frame.length < 8
  ∨ ¬(frame.getD 0 0 = 0xAA ∧ frame.getD 1 0 = 0x55)
  ∨ frame.getD 5 0 + 8 ≠ frame.length
  ∨ crc16_value ((frame.drop 2).take (frame.length - 4))
      ≠ frame.getD (frame.length - 2) 0 + 256 * frame.getD (frame.length - 1) 0
  ∨ ¬ known_func (frame.getD 3 0)

/-- The additional failure mode the code actually has: a recognised
    function whose payload is shorter than its schema requires. -/
def payload_too_short (f plen : Nat) : Prop :=
  (f = 0x02 ∧ plen < 8)
  ∨ ((f = 0x20 ∨ f = 0x21 ∨ f = 0x22 ∨ f = 0x24 ∨ f = 0x25) ∧ plen < 2)
  ∨ (f = 0x23 ∧ plen < 1)

/-- Amended failure condition for claim C2. -/
def decode_fail_amended (frame : List Nat) : Prop :=
  decode_fail_listed frame
  ∨ payload_too_short (frame.getD 3 0) (frame.getD 5 0)

/-- A byte stream containing no AA 55 preamble pair (claim C5's garbage). -/
def has_preamble : List Nat → Bool
  | a :: b :: t => decide (a = 0xAA ∧ b = 0x55) || has_preamble (b :: t)
  | _ => false

/-- A well-formed direct-link wire frame as the framer sees it: at least
    8 bytes, preamble AA 55, LENGTH byte consistent with the total size. -/
def valid_wire (f : List Nat) : Prop :=
  8 ≤ f.length ∧ f.getD 0 0 = 0xAA ∧ f.getD 1 0 = 0x55
    ∧ f.getD 5 0 = f.length - 8

/-- Claim C4's outer-envelope CRC law: the CRC16 recomputed over magic
    through the inner frame equals the trailing two little-endian bytes. -/
def outer_crc_valid (p : List Nat) : Prop :=
  crc16_value (p.take (p.length - 2))
    = p.getD (p.length - 2) 0 + 256 * p.getD (p.length - 1) 0

/-- Registry self-consistency invariant of claim C10. -/
def reg_consistent (reg : NodeReg) : Prop :=
  ∀ e ∈ reg, e.1 = (e.2.bus_id, e.2.address)

/-! ## Helper lemmas -/

theorem crc_step_lt {c : Nat} (h : c < 65536) : crc_step c < 65536 := by
  unfold crc_step
  have hs : c >>> 1 < 65536 := by
    rw [Nat.shiftRight_eq_div_pow]
    omega
  split
  · exact Nat.xor_lt_two_pow (n := 16) hs (by norm_num)
  · exact hs

theorem crc_rounds_lt (n : Nat) {c : Nat} (h : c < 65536) :
    crc_rounds n c < 65536 := by
  induction n generalizing c with
  | zero => exact h
  | succ k ih => exact ih (crc_step_lt h)

theorem crc_foldl_lt (l : List Nat) (init : Nat) (hinit : init < 65536)
    (hb : ∀ b ∈ l, b < 65536) :
    l.foldl (fun crc b => crc_rounds 8 (crc ^^^ b)) init < 65536 := by
  induction l generalizing init with
  | nil => exact hinit
  | cons a t ih =>
    refine ih _ ?_ (fun b hbm => hb b (List.mem_cons_of_mem _ hbm))
    exact crc_rounds_lt 8
      (Nat.xor_lt_two_pow (n := 16) hinit (hb a (List.mem_cons_self _ _)))

/-- The CRC16 of any byte string is below 2^16. -/
theorem crc16_value_lt (data : List Nat) (hb : ∀ b ∈ data, b < 65536) :
    crc16_value data < 65536 :=
  crc_foldl_lt data 0xFFFF (by norm_num) hb

/-- Little-endian byte joining: `lo | (hi << 8)` is `lo + 256 * hi` for a
    genuine low byte. -/
theorem lor_shift8_eq (lo hi : Nat) (h : lo < 256) :
    lo ||| (hi <<< 8) = lo + 256 * hi := by
  have h1 : hi <<< 8 = 2 ^ 8 * hi := by
    rw [Nat.shiftLeft_eq]; ring
  have h2 : lo < 2 ^ 8 := by norm_num [h]
  rw [h1, Nat.lor_comm, ← Nat.mul_add_lt_is_or h2 hi]
  ring

/-- Joining the two bytes of `crcLE` recovers the CRC. -/
theorem crcLE_join (c : Nat) (_h : c < 65536) :
    (c % 256) ||| ((c / 256) <<< 8) = c := by
  rw [lor_shift8_eq _ _ (Nat.mod_lt _ (by norm_num))]
  omega

/-- Expanded cons form of `build_frame`. -/
theorem build_frame_cons (addr func : Nat) (payload : List Nat) :
    build_frame addr func payload
      = 0xAA :: 0x55 :: (addr % 256) :: (func % 256) :: 0 :: (payload.length % 256)
        :: (payload
          ++ [crc16_value ([addr % 256, func % 256, 0, payload.length % 256] ++ payload) % 256,
              crc16_value ([addr % 256, func % 256, 0, payload.length % 256] ++ payload) / 256]) := by
  simp [build_frame, crcLE]

/-- Structural decoding inverts the frame builder: the built frame passes
    the preamble, length and CRC checks and gives back address, function
    and payload. -/
theorem structural_parse_build (addr func : Nat) (payload : List Nat)
    (h_addr : addr < 256) (h_func : func < 256) (h_len : payload.length ≤ 255)
    (h_b : ∀ b ∈ payload, b < 256) :
    structural_parse (build_frame addr func payload)
      = Except.ok (addr, func, payload) := by
  have e1 : addr % 256 = addr := Nat.mod_eq_of_lt h_addr
  have e2 : func % 256 = func := Nat.mod_eq_of_lt h_func
  have e3 : payload.length % 256 = payload.length := Nat.mod_eq_of_lt (by omega)
  have hc : crc16_value ([addr, func, 0, payload.length] ++ payload) < 65536 := by
    refine crc16_value_lt _ ?_
    intro b hbm
    rcases List.mem_append.1 hbm with hl | hr
    · fin_cases hl <;> omega
    · exact lt_trans (h_b b hr) (by norm_num)
  rw [build_frame_cons, e1, e2, e3]
  set c := crc16_value ([addr, func, 0, payload.length] ++ payload) with hcdef
  set tail : List Nat := payload ++ [c % 256, c / 256] with htail
  have htail_len : tail.length = payload.length + 2 := by
    simp [htail]
  have hflen :
      (0xAA :: 0x55 :: addr :: func :: 0 :: payload.length :: tail).length
        = payload.length + 8 := by
    simp [htail]
  unfold structural_parse
  rw [hflen]
  have hguard1 : ¬(payload.length + 8 < 8
      ∨ (0xAA :: 0x55 :: addr :: func :: 0 :: payload.length :: tail).getD 0 0 ≠ 0xAA
      ∨ (0xAA :: 0x55 :: addr :: func :: 0 :: payload.length :: tail).getD 1 0 ≠ 0x55) := by
    simp
  rw [if_neg hguard1]
  have hgl : (0xAA :: 0x55 :: addr :: func :: 0 :: payload.length :: tail).getD 5 0
      = payload.length := by
    simp
  rw [hgl, if_neg (by omega)]
  have hlo : (0xAA :: 0x55 :: addr :: func :: 0 :: payload.length :: tail).getD
      (payload.length + 8 - 2) 0 = c % 256 := by
    have : payload.length + 8 - 2 = payload.length + 6 := by omega
    rw [this]
    simp only [List.getD_cons_succ, htail]
    rw [List.getD_append_right _ _ _ _ (le_refl _)]
    simp
  have hhi : (0xAA :: 0x55 :: addr :: func :: 0 :: payload.length :: tail).getD
      (payload.length + 8 - 1) 0 = c / 256 := by
    have : payload.length + 8 - 1 = payload.length + 7 := by omega
    rw [this]
    simp only [List.getD_cons_succ, htail]
    rw [List.getD_append_right _ _ _ _ (by omega)]
    have : payload.length + 1 - payload.length = 1 := by omega
    rw [this]
    simp
  have hbody : ((0xAA :: 0x55 :: addr :: func :: 0 :: payload.length :: tail).drop 2).take
      (payload.length + 8 - 4) = [addr, func, 0, payload.length] ++ payload := by
    have h4 : payload.length + 8 - 4 = payload.length + 1 + 1 + 1 + 1 := by omega
    rw [h4]
    show (addr :: func :: 0 :: payload.length :: tail).take (payload.length + 1 + 1 + 1 + 1)
      = [addr, func, 0, payload.length] ++ payload
    rw [List.take_succ_cons, List.take_succ_cons, List.take_succ_cons, List.take_succ_cons,
      htail, List.take_left]
    simp
  have hpay : ((0xAA :: 0x55 :: addr :: func :: 0 :: payload.length :: tail).drop 6).take
      payload.length = payload := by
    show tail.take payload.length = payload
    rw [htail, List.take_left]
  rw [hlo, hhi, hbody, hpay]
  rw [crcLE_join c hc]
  rw [if_neg (by simp [hcdef])]
  simp

/-- A defaulted byte read inside the list is one of its elements. -/
theorem getD_mem (l : List Nat) (i : Nat) (h : i < l.length) : l.getD i 0 ∈ l := by
  rw [List.getD_eq_getElem?_getD, List.getElem?_eq_getElem h]
  exact List.getElem_mem h

/-- Case analysis of the structural stage: either one of the four
    structural conditions fails and the result is an error, or none does
    and the raw fields are returned. -/
theorem structural_parse_spec (frame : List Nat) (hb : ∀ b ∈ frame, b < 256) :
    ((frame.length < 8
        ∨ ¬(frame.getD 0 0 = 0xAA ∧ frame.getD 1 0 = 0x55)
        ∨ frame.getD 5 0 + 8 ≠ frame.length
        ∨ crc16_value ((frame.drop 2).take (frame.length - 4))
            ≠ frame.getD (frame.length - 2) 0 + 256 * frame.getD (frame.length - 1) 0)
      ∧ (∃ e, structural_parse frame = Except.error e))
    ∨ (¬(frame.length < 8
        ∨ ¬(frame.getD 0 0 = 0xAA ∧ frame.getD 1 0 = 0x55)
        ∨ frame.getD 5 0 + 8 ≠ frame.length
        ∨ crc16_value ((frame.drop 2).take (frame.length - 4))
            ≠ frame.getD (frame.length - 2) 0 + 256 * frame.getD (frame.length - 1) 0)
      ∧ structural_parse frame
          = Except.ok (frame.getD 2 0, frame.getD 3 0,
              (frame.drop 6).take (frame.getD 5 0))) := by
  unfold structural_parse
  split_ifs with h1 h2 h3
  · exact Or.inl ⟨by tauto, ⟨_, rfl⟩⟩
  · refine Or.inl ⟨?_, ⟨_, rfl⟩⟩
    right; right; left; omega
  · -- CRC mismatch: rewrite the little-endian join
    push_neg at h1
    have hlo : frame.getD (frame.length - 2) 0 < 256 :=
      hb _ (getD_mem frame _ (by omega))
    rw [lor_shift8_eq _ _ hlo] at h3
    refine Or.inl ⟨?_, ⟨_, rfl⟩⟩
    right; right; right
    exact fun hEq => h3 hEq.symm
  · push_neg at h1
    have hlo : frame.getD (frame.length - 2) 0 < 256 :=
      hb _ (getD_mem frame _ (by omega))
    rw [lor_shift8_eq _ _ hlo] at h3
    push_neg at h3
    refine Or.inr ⟨?_, rfl⟩
    push_neg
    exact ⟨h1.1, ⟨h1.2.1, h1.2.2⟩, by omega, h3.symm⟩

/-- HELLO dispatch succeeds exactly on payloads of at least 8 bytes. -/
theorem dispatch_hello_iff (addr : Nat) (payload : List Nat) :
    (∃ p, parse_dispatch addr 0x02 payload = Except.ok p)
      ↔ ¬(payload.length < 8) := by
  unfold parse_dispatch
  simp only [FunctionCode.HELLO, reduceIte]
  unfold parse_hello
  split_ifs with h
  · refine iff_of_false ?_ (by simpa using h)
    rintro ⟨p, hp⟩
    cases hp
  · exact iff_of_true ⟨_, rfl⟩ h

/-- INPUT_CHANGE dispatch succeeds exactly on payloads of length ≥ 2. -/
theorem dispatch_input_change_iff (addr : Nat) (payload : List Nat) :
    (∃ p, parse_dispatch addr 0x20 payload = Except.ok p)
      ↔ 2 ≤ payload.length := by
  unfold parse_dispatch
  simp only [FunctionCode.HELLO, FunctionCode.INPUT_CHANGE, reduceIte]
  rcases payload with _ | ⟨a, _ | ⟨b, t⟩⟩ <;>
    simp [byteAt, Bind.bind, Except.bind]

/-- OUTPUT_STATE dispatch succeeds exactly on payloads of length ≥ 2. -/
theorem dispatch_output_state_iff (addr : Nat) (payload : List Nat) :
    (∃ p, parse_dispatch addr 0x21 payload = Except.ok p)
      ↔ 2 ≤ payload.length := by
  unfold parse_dispatch
  simp only [FunctionCode.HELLO, FunctionCode.INPUT_CHANGE, FunctionCode.OUTPUT_STATE,
    reduceIte]
  rcases payload with _ | ⟨a, _ | ⟨b, t⟩⟩ <;>
    simp [byteAt, Bind.bind, Except.bind]

/-- PWM_STATE dispatch succeeds exactly on payloads of length ≥ 2. -/
theorem dispatch_pwm_state_iff (addr : Nat) (payload : List Nat) :
    (∃ p, parse_dispatch addr 0x22 payload = Except.ok p)
      ↔ 2 ≤ payload.length := by
  unfold parse_dispatch
  simp only [FunctionCode.HELLO, FunctionCode.INPUT_CHANGE, FunctionCode.OUTPUT_STATE,
    FunctionCode.PWM_STATE, reduceIte]
  rcases payload with _ | ⟨a, _ | ⟨b, t⟩⟩ <;>
    simp [byteAt, Bind.bind, Except.bind]

/-- ANALOG_SAMPLE dispatch succeeds exactly on nonempty payloads (a short
    payload only zeroes the raw value; the channel read needs one byte). -/
theorem dispatch_analog_sample_iff (addr : Nat) (payload : List Nat) :
    (∃ p, parse_dispatch addr 0x23 payload = Except.ok p)
      ↔ 1 ≤ payload.length := by
  unfold parse_dispatch
  simp only [FunctionCode.HELLO, FunctionCode.INPUT_CHANGE, FunctionCode.OUTPUT_STATE,
    FunctionCode.PWM_STATE, FunctionCode.ANALOG_SAMPLE, reduceIte]
  rcases payload with _ | ⟨a, _ | ⟨b, _ | ⟨c, u⟩⟩⟩ <;>
    simp [byteAt, Bind.bind, Except.bind]

/-- BUTTON_EVENT dispatch succeeds exactly on payloads of length ≥ 2. -/
theorem dispatch_button_event_iff (addr : Nat) (payload : List Nat) :
    (∃ p, parse_dispatch addr 0x24 payload = Except.ok p)
      ↔ 2 ≤ payload.length := by
  unfold parse_dispatch
  simp only [FunctionCode.HELLO, FunctionCode.INPUT_CHANGE, FunctionCode.OUTPUT_STATE,
    FunctionCode.PWM_STATE, FunctionCode.ANALOG_SAMPLE, FunctionCode.BUTTON_EVENT,
    reduceIte]
  rcases payload with _ | ⟨a, _ | ⟨b, t⟩⟩ <;>
    simp [byteAt, Bind.bind, Except.bind]

/-- ENCODER_EVENT dispatch succeeds exactly on payloads of length ≥ 2. -/
theorem dispatch_encoder_event_iff (addr : Nat) (payload : List Nat) :
    (∃ p, parse_dispatch addr 0x25 payload = Except.ok p)
      ↔ 2 ≤ payload.length := by
  unfold parse_dispatch
  simp only [FunctionCode.HELLO, FunctionCode.INPUT_CHANGE, FunctionCode.OUTPUT_STATE,
    FunctionCode.PWM_STATE, FunctionCode.ANALOG_SAMPLE, FunctionCode.BUTTON_EVENT,
    FunctionCode.ENCODER_EVENT, reduceIte]
  rcases payload with _ | ⟨a, _ | ⟨b, t⟩⟩ <;>
    simp [byteAt, Bind.bind, Except.bind]

/-- An unrecognised function code always fails dispatch. -/
theorem dispatch_unknown (addr func : Nat) (payload : List Nat)
    (h : ¬ known_func func) :
    parse_dispatch addr func payload = Except.error "unknown func" := by
  unfold parse_dispatch
  unfold known_func at h
  push_neg at h
  obtain ⟨n1, n2, n3, n4, n5, n6, n7⟩ := h
  rw [if_neg (by simpa [FunctionCode.HELLO] using n1),
    if_neg (by simpa [FunctionCode.INPUT_CHANGE] using n2),
    if_neg (by simpa [FunctionCode.OUTPUT_STATE] using n3),
    if_neg (by simpa [FunctionCode.PWM_STATE] using n4),
    if_neg (by simpa [FunctionCode.ANALOG_SAMPLE] using n5),
    if_neg (by simpa [FunctionCode.BUTTON_EVENT] using n6),
    if_neg (by simpa [FunctionCode.ENCODER_EVENT] using n7)]

/-- Success of the function dispatch is exactly: a recognised function
    whose payload is long enough for its schema. -/
theorem parse_dispatch_ok_iff (addr func : Nat) (payload : List Nat) :
    (∃ p, parse_dispatch addr func payload = Except.ok p)
      ↔ (known_func func ∧ ¬ payload_too_short func payload.length) := by
  by_cases hk : known_func func
  · have hk' := hk
    unfold known_func at hk'
    rcases hk' with h | h | h | h | h | h | h <;> subst h
    · rw [dispatch_hello_iff]
      simp [known_func, payload_too_short]
    · rw [dispatch_input_change_iff]
      simp [known_func, payload_too_short]
    · rw [dispatch_output_state_iff]
      simp [known_func, payload_too_short]
    · rw [dispatch_pwm_state_iff]
      simp [known_func, payload_too_short]
    · rw [dispatch_analog_sample_iff]
      simp [known_func, payload_too_short]
      exact List.length_pos
    · rw [dispatch_button_event_iff]
      simp [known_func, payload_too_short]
    · rw [dispatch_encoder_event_iff]
      simp [known_func, payload_too_short]
  · rw [dispatch_unknown addr func payload hk]
    refine iff_of_false ?_ (fun hc => hk hc.1)
    rintro ⟨p, hp⟩
    cases hp

/-- Full characterization of decode success for byte strings. -/
theorem parse_frame_ok_iff (frame : List Nat) (hb : ∀ b ∈ frame, b < 256) :
    (∃ p, parse_frame frame = Except.ok p) ↔ ¬ decode_fail_amended frame := by
  rcases structural_parse_spec frame hb with ⟨hcond, ⟨e, herr⟩⟩ | ⟨hcond, hok⟩
  · have hpf : parse_frame frame = Except.error e := by
      unfold parse_frame
      rw [herr]
      rfl
    refine iff_of_false ?_ ?_
    · rintro ⟨p, hp⟩
      rw [hpf] at hp
      cases hp
    · intro hno
      exact hno (Or.inl (by unfold decode_fail_listed; tauto))
  · have hpf : parse_frame frame
        = parse_dispatch (frame.getD 2 0) (frame.getD 3 0)
            ((frame.drop 6).take (frame.getD 5 0)) := by
      unfold parse_frame
      rw [hok]
      rfl
    push_neg at hcond
    obtain ⟨hl8, hpre, hlen, hcrc⟩ := hcond
    have hplen : ((frame.drop 6).take (frame.getD 5 0)).length = frame.getD 5 0 := by
      rw [List.length_take, List.length_drop]
      omega
    rw [hpf, parse_dispatch_ok_iff, hplen]
    unfold decode_fail_amended decode_fail_listed
    constructor
    · rintro ⟨hk, hs⟩ (hlisted | hshort)
      · rcases hlisted with h | h | h | h | h
        · omega
        · exact h ⟨hpre.1, hpre.2⟩
        · omega
        · exact h hcrc
        · exact h hk
      · exact hs hshort
    · intro hno
      constructor
      · by_contra hk
        exact hno (Or.inl (by tauto))
      · intro hs
        exact hno (Or.inr hs)

set_option maxRecDepth 100000 in
/-- C2 (counterexample): a frame that satisfies every condition the claim
    enumerates (8 bytes, preamble, declared length, CRC, known function
    0x20) yet fails to decode, because the INPUT_CHANGE payload is empty
    and the channel/value reads fall outside it. -/
theorem decode_fail_beyond_listed :
    ¬ decode_fail_listed (build_frame 1 0x20 [])
      ∧ parse_frame (build_frame 1 0x20 [])
          = Except.error "index out of range" := by
  constructor
  · unfold decode_fail_listed known_func
    decide
  · decide

/-- C2 (amended): for every byte string, decoding either yields a typed
    frame or fails with a frame error; it fails exactly when the input is
    shorter than 8 bytes, the preamble AA 55 does not match, the declared
    LENGTH plus the 8-byte overhead differs from the frame length, the
    recomputed CRC16 differs from the trailing two little-endian bytes,
    the function code is unknown, OR the payload is shorter than the
    recognised function's schema requires; and the hub's frame-received
    handler drops the frame on any failure without propagating it. -/
theorem decode_failure_characterization (frame : List Nat)
    (hb : ∀ b ∈ frame, b < 256) :
    ((∃ p, parse_frame frame = Except.ok p) ↔ ¬ decode_fail_amended frame)
    ∧ (∀ (st : HubState) (bus : String) (e : String),
        parse_frame frame = Except.error e → on_frame st bus frame = (st, [], [])) := by
  refine ⟨parse_frame_ok_iff frame hb, ?_⟩
  intro st bus e he
  unfold on_frame
  rw [he]

set_option maxRecDepth 100000 in
/-- Witness for `decode_failure_characterization` on the concrete valid
    INPUT_CHANGE frame for address 1, channel 5, value 1. -/
theorem decode_failure_characterization_witness :
    (∃ p, parse_frame (build_frame 1 0x20 [5, 1]) = Except.ok p)
      ↔ ¬ decode_fail_amended (build_frame 1 0x20 [5, 1]) :=
  (decode_failure_characterization (build_frame 1 0x20 [5, 1]) (by decide)).1

/-! ## Claims -/

set_option maxRecDepth 100000 in
/-- C3: encoding a set-output command for address 5, channel 2, on=true
    yields exactly AA 55 05 10 00 02 02 01 followed by the CRC16 of
    05 10 00 02 02 01 in little-endian order (concretely A0 ED). -/
theorem set_output_concrete_bytes :
    async_set_output 5 2 true
        = [0xAA, 0x55, 0x05, 0x10, 0x00, 0x02, 0x02, 0x01]
          ++ crcLE (crc16_value [0x05, 0x10, 0x00, 0x02, 0x02, 0x01])
      ∧ async_set_output 5 2 true
        = [0xAA, 0x55, 0x05, 0x10, 0x00, 0x02, 0x02, 0x01, 0xA0, 0xED] := by
  constructor
  · decide
  · decide

set_option maxRecDepth 100000 in
/-- C1 (counterexample): the round trip fails as stated — the hub's parser
    rejects the frame built for the set-output command (a command code)
    with an unknown-function error instead of returning the frame. -/
theorem decode_encode_command_fails :
    parse_frame (build_frame 5 FunctionCode.SET_OUTPUT [2, 1])
      = Except.error "unknown func" := by
  decide

/-- C1 (amended): for every address, command function code and payload of
    byte values (length at most 255), the frame produced by the builder
    passes structural validation and its address, function and payload
    fields read back equal the inputs; the typed decoder, however, rejects
    the command codes (discover, set-output, set-pwm) as unknown
    functions, so the round trip holds only at the structural layer. -/
theorem frame_roundtrip_structural (addr func : Nat) (payload : List Nat)
    (h_addr : addr < 256) (h_func : func < 256) (h_len : payload.length ≤ 255)
    (h_b : ∀ b ∈ payload, b < 256) :
    structural_parse (build_frame addr func payload)
        = Except.ok (addr, func, payload)
      ∧ (func = FunctionCode.DISCOVER ∨ func = FunctionCode.SET_OUTPUT
          ∨ func = FunctionCode.SET_PWM →
         parse_frame (build_frame addr func payload)
           = Except.error "unknown func") := by
  have hsp := structural_parse_build addr func payload h_addr h_func h_len h_b
  refine ⟨hsp, fun hcmd => ?_⟩
  unfold parse_frame
  rw [hsp]
  show parse_dispatch addr func payload = Except.error "unknown func"
  unfold parse_dispatch
  rcases hcmd with h | h | h <;> subst h <;> rfl

/-- Witness for `frame_roundtrip_structural` at address 5, function
    set-output (0x10), payload [2, 1]. -/
theorem frame_roundtrip_structural_witness :
    structural_parse (build_frame 5 0x10 [2, 1]) = Except.ok (5, 0x10, [2, 1])
      ∧ (0x10 = FunctionCode.DISCOVER ∨ 0x10 = FunctionCode.SET_OUTPUT
          ∨ 0x10 = FunctionCode.SET_PWM →
         parse_frame (build_frame 5 0x10 [2, 1]) = Except.error "unknown func") :=
  frame_roundtrip_structural 5 0x10 [2, 1] (by norm_num) (by norm_num)
    (by norm_num) (by decide)


/-! ## Registry lemmas -/

theorem find?_set_key_self (reg : NodeReg) (k : String × Nat) (v : VelolinkNode)
    (h : contains_key reg k = true) :
    (set_key reg k v).find? (fun e => decide (e.1 = k)) = some (k, v) := by
  induction reg with
  | nil => cases h
  | cons e t ih =>
    unfold set_key at ih ⊢
    rw [List.map_cons]
    by_cases he : e.1 = k
    · rw [if_pos he]
      rw [List.find?_cons_of_pos _ (by simp)]
    · rw [if_neg he]
      rw [List.find?_cons_of_neg _ (by simp [he])]
      refine ih ?_
      unfold contains_key at h ⊢
      rw [List.any_cons, Bool.or_eq_true] at h
      rcases h with h | h
      · exact absurd (by simpa using h : e.1 = k) he
      · exact h

theorem find?_set_key_other (reg : NodeReg) (k k' : String × Nat) (v : VelolinkNode)
    (h : k' ≠ k) :
    (set_key reg k v).find? (fun e => decide (e.1 = k'))
      = reg.find? (fun e => decide (e.1 = k')) := by
  induction reg with
  | nil => rfl
  | cons e t ih =>
    unfold set_key at ih ⊢
    rw [List.map_cons]
    by_cases he : e.1 = k
    · rw [if_pos he]
      rw [List.find?_cons_of_neg _ (by simp [Ne.symm h]),
        List.find?_cons_of_neg _ (by simp [he, Ne.symm h])]
      exact ih
    · rw [if_neg he]
      by_cases he' : e.1 = k'
      · rw [List.find?_cons_of_pos _ (by simp [he']),
          List.find?_cons_of_pos _ (by simp [he'])]
      · rw [List.find?_cons_of_neg _ (by simp [he']),
          List.find?_cons_of_neg _ (by simp [he'])]
        exact ih

/-- C6: registering a node stores it under its own key (overwriting in
    full on re-announcement), leaves every other key unchanged, emits no
    new-node notification when the key was present, and emits exactly one
    when it was absent. -/
theorem register_node_spec (reg : NodeReg) (node : VelolinkNode) :
    get_node (register_node reg node).1 node.bus_id node.address = some node
    ∧ (∀ b a, (b, a) ≠ (node.bus_id, node.address) →
        get_node (register_node reg node).1 b a = get_node reg b a)
    ∧ (contains_key reg (node.bus_id, node.address) = true →
        (register_node reg node).2 = [])
    ∧ (contains_key reg (node.bus_id, node.address) = false →
        (register_node reg node).2 = [node]) := by
  unfold register_node
  by_cases hc : contains_key reg (node.bus_id, node.address) = true
  · rw [if_pos hc]
    refine ⟨?_, ?_, fun _ => rfl, fun hf => absurd hc (by simp [hf])⟩
    · unfold get_node
      rw [find?_set_key_self reg _ node hc]
      rfl
    · intro b a hne
      unfold get_node
      rw [find?_set_key_other reg _ (b, a) node hne]
  · rw [if_neg hc]
    rw [Bool.not_eq_true] at hc
    have hnone : reg.find? (fun e => decide (e.1 = (node.bus_id, node.address))) = none := by
      rw [List.find?_eq_none]
      intro x hx hpx
      refine absurd ?_ (by simp [hc] : ¬ contains_key reg (node.bus_id, node.address) = true)
      unfold contains_key
      rw [List.any_eq_true]
      exact ⟨x, hx, hpx⟩
    refine ⟨?_, ?_, fun ht => absurd ht (by simp [hc]), fun _ => rfl⟩
    · unfold get_node
      rw [List.find?_append, hnone]
      simp
    · intro b a hne
      unfold get_node
      rw [List.find?_append]
      have : List.find? (fun e => decide (e.1 = (b, a))) [((node.bus_id, node.address), node)]
          = none := by
        simp [Ne.symm hne]
      rw [this]
      cases reg.find? (fun e => decide (e.1 = (b, a))) <;> rfl

/-- Witness for `register_node_spec`: inserting into the empty registry
    stores the node and emits exactly one notification. -/
theorem register_node_spec_witness :
    get_node (register_node [] sample_node).1 sample_node.bus_id sample_node.address
        = some sample_node
      ∧ (register_node [] sample_node).2 = [sample_node] :=
  ⟨(register_node_spec [] sample_node).1,
    (register_node_spec [] sample_node).2.2.2 (by decide)⟩

theorem register_preserves_consistent (reg : NodeReg) (node : VelolinkNode)
    (h : reg_consistent reg) : reg_consistent (register_node reg node).1 := by
  unfold register_node
  split_ifs with hc
  · intro e he
    unfold set_key at he
    rw [List.mem_map] at he
    obtain ⟨src, hsrc, hmap⟩ := he
    by_cases hk : src.1 = (node.bus_id, node.address)
    · rw [if_pos hk] at hmap
      rw [← hmap]
    · rw [if_neg hk] at hmap
      rw [← hmap]
      exact h src hsrc
  · intro e he
    rw [List.mem_append] at he
    rcases he with he | he
    · exact h e he
    · simp at he
      rw [he]

/-- C10: the node registry is self-consistent with its keys after any
    sequence of registrations starting from the empty registry, and a
    `get_node` hit therefore returns a node whose bus and address equal
    the lookup arguments. -/
theorem registry_consistency :
    (∀ regs : List VelolinkNode,
      reg_consistent (regs.foldl (fun acc n => (register_node acc n).1) []))
    ∧ (∀ (reg : NodeReg), reg_consistent reg → ∀ b a n,
        get_node reg b a = some n → n.bus_id = b ∧ n.address = a) := by
  constructor
  · intro regs
    have general : ∀ (l : List VelolinkNode) (acc : NodeReg), reg_consistent acc →
        reg_consistent (l.foldl (fun acc n => (register_node acc n).1) acc) := by
      intro l
      induction l with
      | nil => exact fun acc h => h
      | cons n t ih =>
        intro acc hacc
        exact ih _ (register_preserves_consistent acc n hacc)
    exact general regs [] (by intro e he; cases he)
  · intro reg hcons b a n hget
    unfold get_node at hget
    cases hfind : reg.find? (fun e => decide (e.1 = (b, a))) with
    | none => rw [hfind] at hget; cases hget
    | some e =>
      rw [hfind] at hget
      have hmem := List.mem_of_find?_eq_some hfind
      have hpred := List.find?_some hfind
      have hkey : e.1 = (b, a) := by simpa using hpred
      have hcon := hcons e hmem
      have hen : e.2 = n := by
        simpa using hget
      rw [hen] at hcon
      rw [hkey] at hcon
      exact ⟨congrArg Prod.fst hcon.symm, congrArg Prod.snd hcon.symm⟩

/-- Witness for `registry_consistency` on a one-entry registry. -/
theorem registry_consistency_witness :
    sample_node.bus_id = "bus1" ∧ sample_node.address = 3 :=
  registry_consistency.2 [(("bus1", 3), sample_node)]
    (by unfold reg_consistent; decide) "bus1" 3 sample_node (by decide)


/-! ## Event fan-out (C7), unsubscribe handles (C8), startup (C9) -/

/-- C7: every successfully decoded non-HELLO event frame is delivered to
    exactly the callbacks registered under (bus, addr, ch) in the matching
    category, in registration order; each registered callback is invoked
    exactly once with the event value, and a callback raising an error
    does not prevent the delivery to any other callback of the same
    event. -/
theorem event_fanout_spec :
    (∀ (st : HubState) (bus : String) (frame : List Nat) (addr ch v : Nat),
        parse_frame frame = Except.ok (.inputChange addr ch v) →
        on_frame st bus frame
          = (st, [], emit_list (st.subs_input (bus, addr, ch)) (.b (v != 0))))
    ∧ (∀ (st : HubState) (bus : String) (frame : List Nat) (addr ch v : Nat),
        parse_frame frame = Except.ok (.outputState addr ch v) →
        on_frame st bus frame
          = (st, [], emit_list (st.subs_output (bus, addr, ch)) (.b (v != 0))))
    ∧ (∀ (st : HubState) (bus : String) (frame : List Nat) (addr ch v : Nat),
        parse_frame frame = Except.ok (.pwmState addr ch v) →
        on_frame st bus frame
          = (st, [], emit_list (st.subs_pwm (bus, addr, ch)) (.n v)))
    ∧ (∀ (st : HubState) (bus : String) (frame : List Nat) (addr ch raw : Nat),
        parse_frame frame = Except.ok (.analogSample addr ch raw) →
        on_frame st bus frame
          = (st, [], emit_list (st.subs_analog (bus, addr, ch)) (.q ((raw : Rat) / 1000))))
    ∧ (∀ (st : HubState) (bus : String) (frame : List Nat) (addr ch : Nat) (pr : Bool),
        parse_frame frame = Except.ok (.buttonEvent addr ch pr) →
        on_frame st bus frame
          = (st, [], emit_list (st.subs_button (bus, addr, ch)) (.b pr)))
    ∧ (∀ (st : HubState) (bus : String) (frame : List Nat) (addr ch : Nat) (d : Int),
        parse_frame frame = Except.ok (.encoderEvent addr ch d) →
        on_frame st bus frame
          = (st, [], emit_list (st.subs_encoder (bus, addr, ch)) (.i d)))
    ∧ (∀ (cbs : List (EvVal → Except String Unit)) (v : EvVal),
        (emit_list cbs v).length = cbs.length
        ∧ (∀ i (h : i < cbs.length),
            (emit_list cbs v).get? i = some ((cbs.get ⟨i, h⟩) v))
        ∧ (∀ (e : String) (i j : Nat) (hi : i < cbs.length) (hj : j < cbs.length),
            (cbs.get ⟨i, hi⟩) v = Except.error e →
            (emit_list cbs v).get? j = some ((cbs.get ⟨j, hj⟩) v))) := by
  refine ⟨?_, ?_, ?_, ?_, ?_, ?_, ?_⟩
  · intro st bus frame addr ch v hp
    unfold on_frame
    rw [hp]
  · intro st bus frame addr ch v hp
    unfold on_frame
    rw [hp]
  · intro st bus frame addr ch v hp
    unfold on_frame
    rw [hp]
  · intro st bus frame addr ch raw hp
    unfold on_frame
    rw [hp]
  · intro st bus frame addr ch pr hp
    unfold on_frame
    rw [hp]
  · intro st bus frame addr ch d hp
    unfold on_frame
    rw [hp]
  · intro cbs v
    refine ⟨by simp [emit_list], ?_, ?_⟩
    · intro i h
      unfold emit_list
      rw [List.get?_eq_getElem?, List.getElem?_map, List.getElem?_eq_getElem h]
      rfl
    · intro e i j hi hj _
      unfold emit_list
      rw [List.get?_eq_getElem?, List.getElem?_map, List.getElem?_eq_getElem hj]
      rfl

set_option maxRecDepth 100000 in
/-- Witness for `event_fanout_spec`: a concrete INPUT_CHANGE frame is
    fanned out to the two subscribers of ("bus1", 1, 5), and the callback
    after the raising one is still invoked. -/
theorem event_fanout_spec_witness :
    on_frame sample_state "bus1" (build_frame 1 0x20 [5, 1])
        = (sample_state, [],
            emit_list (sample_state.subs_input ("bus1", 1, 5)) (.b true))
      ∧ (emit_list [cb_fail, cb_ok] (EvVal.b true)).get? 1
          = some (([cb_fail, cb_ok].get ⟨1, by norm_num⟩) (EvVal.b true)) :=
  ⟨event_fanout_spec.1 sample_state "bus1" (build_frame 1 0x20 [5, 1]) 1 5 1
      (by decide),
    (event_fanout_spec.2.2.2.2.2.2 [cb_fail, cb_ok] (EvVal.b true)).2.2 "boom" 0 1
      (by norm_num) (by norm_num) rfl⟩

/-- C8 (counterexample): when the same callback object is subscribed twice
    under one key, invoking the returned handle a second time is not a
    no-op — it removes the remaining occurrence as well. -/
theorem unsubscribe_twice_not_noop :
    unsubscribe 7 [7, 7] = [7]
      ∧ unsubscribe 7 (unsubscribe 7 [7, 7]) = [] := by
  constructor
  · decide
  · decide

/-- C8 (amended): the handle removes the first occurrence of its callback
    (plain no-op when the callback is absent, never an error); when the
    callback is subscribed exactly once, a subsequent matching event
    invokes it zero times and a second invocation of the handle is a
    no-op; in general each invocation removes one occurrence while any
    remain. -/
theorem unsubscribe_of_not_mem (cb : Nat) (l : List Nat) (h : cb ∉ l) :
    unsubscribe cb l = l := by
  unfold unsubscribe
  rw [if_neg h]

theorem unsubscribe_spec (cb : Nat) (l : List Nat) :
    (cb ∉ l → unsubscribe cb l = l)
    ∧ (cb ∈ l → unsubscribe cb l = l.erase cb
        ∧ (unsubscribe cb l).count cb = l.count cb - 1)
    ∧ (l.count cb = 1 → (unsubscribe cb l).count cb = 0
        ∧ unsubscribe cb (unsubscribe cb l) = unsubscribe cb l) := by
  refine ⟨?_, ?_, ?_⟩
  · exact unsubscribe_of_not_mem cb l
  · intro h
    unfold unsubscribe
    rw [if_pos h]
    exact ⟨rfl, List.count_erase_self cb l⟩
  · intro h1
    have hmem : cb ∈ l := by
      rw [← List.count_pos_iff, h1]
      norm_num
    have her : unsubscribe cb l = l.erase cb := by
      unfold unsubscribe
      rw [if_pos hmem]
    have hcount : (unsubscribe cb l).count cb = 0 := by
      rw [her, List.count_erase_self, h1]
    have hnot : cb ∉ unsubscribe cb l := by
      intro hm
      rw [← List.count_pos_iff] at hm
      omega
    exact ⟨hcount, unsubscribe_of_not_mem cb _ hnot⟩

/-- Witness for `unsubscribe_spec`: unsubscribing an absent callback is the
    plain no-op, and after unsubscribing a once-subscribed callback it is
    invoked zero times and a second invocation changes nothing. -/
theorem unsubscribe_spec_witness :
    unsubscribe 9 [1, 2] = [1, 2]
      ∧ ((unsubscribe 5 [5]).count 5 = 0
          ∧ unsubscribe 5 (unsubscribe 5 [5]) = unsubscribe 5 [5]) :=
  ⟨(unsubscribe_spec 9 [1, 2]).1 (by decide),
    (unsubscribe_spec 5 [5]).2.2 (by decide)⟩

/-- C9 (counterexample): with a valid serial bus configured before a bus
    of unknown transport kind, startup fails but the first transport stays
    registered in the transport table — the system is partially started. -/
theorem async_start_partial_state :
    (async_start [("bus1", "serial"), ("bus2", "zigbee")]).2.isSome = true
      ∧ (async_start [("bus1", "serial"), ("bus2", "zigbee")]).1
          = [("bus1", "serial")] := by
  constructor
  · decide
  · decide

theorem start_buses_spec (buses table : List (String × String))
    (h : ∃ e ∈ buses, e.2 ≠ "serial" ∧ e.2 ≠ "tcp") :
    (start_buses buses table).2.isSome = true
    ∧ (start_buses buses table).1
        = table ++ buses.takeWhile
            (fun e => decide (e.2 = "serial") || decide (e.2 = "tcp")) := by
  induction buses generalizing table with
  | nil =>
    obtain ⟨e, he, -⟩ := h
    cases he
  | cons b rest ih =>
    obtain ⟨bid, btr⟩ := b
    by_cases hg : btr = "serial" ∨ btr = "tcp"
    · have hh : ∃ e ∈ rest, e.2 ≠ "serial" ∧ e.2 ≠ "tcp" := by
        obtain ⟨e, he, hbad⟩ := h
        rcases List.mem_cons.1 he with rfl | he'
        · rcases hg with hg | hg
          · exact absurd hg hbad.1
          · exact absurd hg hbad.2
        · exact ⟨e, he', hbad⟩
      have hstep : start_buses ((bid, btr) :: rest) table
          = start_buses rest (table ++ [(bid, btr)]) := by
        conv_lhs => unfold start_buses
        rw [if_pos hg]
      obtain ⟨hsome, htab⟩ := ih (table ++ [(bid, btr)]) hh
      constructor
      · rw [hstep]
        exact hsome
      · rw [hstep, htab, List.takeWhile_cons_of_pos (by simpa using hg)]
        simp
    · have hstep : start_buses ((bid, btr) :: rest) table
          = (table, some ("Unknown transport: " ++ btr)) := by
        conv_lhs => unfold start_buses
        rw [if_neg hg]
      constructor
      · rw [hstep]
        rfl
      · rw [hstep, List.takeWhile_cons_of_neg (by simpa using hg)]
        simp

/-- C9 (amended): if any configured bus names an unrecognized transport
    kind, hub start raises an error to the caller, but the start is not
    rolled back: every bus before the first offending one (in
    configuration order) remains registered in the transport table; only
    when the offending bus comes first is the table empty. -/
theorem async_start_unknown_kind (buses : List (String × String))
    (h : ∃ e ∈ buses, e.2 ≠ "serial" ∧ e.2 ≠ "tcp") :
    (async_start buses).2.isSome = true
    ∧ (async_start buses).1
        = buses.takeWhile
            (fun e => decide (e.2 = "serial") || decide (e.2 = "tcp")) := by
  have hs := start_buses_spec buses [] h
  unfold async_start
  simpa using hs

/-- Witness for `async_start_unknown_kind` at the two-bus configuration
    whose second bus has an unknown transport kind. -/
theorem async_start_unknown_kind_witness :
    (async_start [("bus1", "serial"), ("bus2", "zigbee")]).2.isSome = true
    ∧ (async_start [("bus1", "serial"), ("bus2", "zigbee")]).1
        = [("bus1", "serial"), ("bus2", "zigbee")].takeWhile
            (fun e => decide (e.2 = "serial") || decide (e.2 = "tcp")) :=
  async_start_unknown_kind [("bus1", "serial"), ("bus2", "zigbee")]
    ⟨("bus2", "zigbee"), by decide, by decide, by decide⟩


/-! ## Tunneled-envelope delivery (C4) -/

theorem extract_tcp_packet_some_lt (buf : List Nat) :
    ∀ p b, extract_tcp_packet buf = (some p, b) → b.length < buf.length := by
  induction buf with
  | nil =>
    intro p b h
    simp [extract_tcp_packet] at h
  | cons x rest ih =>
    intro p b h
    unfold extract_tcp_packet at h
    split_ifs at h with h1 h2 h3
    · simp at h
    · simp at h
    · rw [Prod.mk.injEq] at h
      obtain ⟨-, hb⟩ := h
      rw [← hb, List.length_drop]
      simp only [List.length_cons] at h1 ⊢
      omega
    · exact Nat.lt_succ_of_lt (ih p b h)

theorem tcp_drain_aux_congr (n : Nat) :
    ∀ (m : Nat) (buf : List Nat), buf.length ≤ n → buf.length ≤ m →
    tcp_drain_aux n buf = tcp_drain_aux m buf := by
  induction n with
  | zero =>
    intro m buf hn _
    have hb : buf = [] := List.length_eq_zero.1 (Nat.le_zero.1 hn)
    subst hb
    cases m with
    | zero => rfl
    | succ j => simp [tcp_drain_aux, extract_tcp_packet]
  | succ k ih =>
    intro m buf hn hm
    cases m with
    | zero =>
      have hb : buf = [] := List.length_eq_zero.1 (Nat.le_zero.1 hm)
      subst hb
      simp [tcp_drain_aux, extract_tcp_packet]
    | succ j =>
      unfold tcp_drain_aux
      cases hx : extract_tcp_packet buf with
      | mk o b =>
        cases o with
        | none => rfl
        | some p =>
          have hlt := extract_tcp_packet_some_lt buf p b hx
          simp only
          rw [ih j b (by omega) (by omega)]

theorem tcp_drain_cons (buf p rest : List Nat)
    (h : extract_tcp_packet buf = (some p, rest)) :
    tcp_drain buf = (tcp_inner p :: (tcp_drain rest).1, (tcp_drain rest).2) := by
  cases buf with
  | nil => simp [extract_tcp_packet] at h
  | cons x t =>
    have hlt := extract_tcp_packet_some_lt (x :: t) p rest h
    show tcp_drain_aux (x :: t).length (x :: t) = _
    rw [List.length_cons]
    unfold tcp_drain_aux
    rw [h]
    simp only
    unfold tcp_drain
    rw [tcp_drain_aux_congr t.length rest.length rest
      (by simp only [List.length_cons] at hlt; omega) (le_refl _)]

set_option maxRecDepth 100000 in
/-- C4 (counterexample): an envelope whose trailing outer-CRC bytes are
    wrong (here 00 00) is still unwrapped and its inner frame delivered by
    the TCP read loop, refuting the claim that delivery happens only for
    envelopes with a matching outer CRC. -/
theorem tcp_bad_crc_delivered :
    (tcp_drain [0x56, 0x4C, 1, 1, 2, 0, 0xAA, 0x55, 0, 0]).1 = [[0xAA, 0x55]]
      ∧ ¬ outer_crc_valid [0x56, 0x4C, 1, 1, 2, 0, 0xAA, 0x55, 0, 0] := by
  constructor
  · decide
  · unfold outer_crc_valid
    decide

/-- C4 (amended): every envelope the TCP framer extracts (magic and
    declared length valid) is unwrapped and its inner frame delivered to
    the frame callback — the outer CRC is never verified on receive; the
    outer CRC law of the spec holds on the write path, where
    `async_write_frame` appends a CRC that recomputes correctly. -/
theorem tcp_delivery_no_crc_check (buffer p rest : List Nat)
    (h : extract_tcp_packet buffer = (some p, rest)) :
    (tcp_drain buffer).1 = tcp_inner p :: (tcp_drain rest).1
    ∧ ∀ (bus_id : String) (frame : List Nat),
        outer_crc_valid (write_tcp_packet bus_id frame) := by
  constructor
  · rw [tcp_drain_cons buffer p rest h]
  · intro bus_id frame
    unfold write_tcp_packet outer_crc_valid
    set body : List Nat := [0x56, 0x4C, 0x01, if bus_id = "bus1" then 0x01 else 0x02]
      ++ [frame.length % 256, frame.length / 256] ++ frame with hbody
    set c := crc16_value body with hc
    have hlen : (body ++ crcLE c).length = body.length + 2 := by
      simp [crcLE]
    rw [hlen]
    have ht : (body ++ crcLE c).take (body.length + 2 - 2) = body := by
      have e : body.length + 2 - 2 = body.length := by omega
      rw [e, List.take_left]
    have h1 : (body ++ crcLE c).getD (body.length + 2 - 2) 0 = c % 256 := by
      have e : body.length + 2 - 2 = body.length := by omega
      rw [e, List.getD_append_right _ _ _ _ (le_refl _)]
      simp [crcLE]
    have h2 : (body ++ crcLE c).getD (body.length + 2 - 1) 0 = c / 256 := by
      have e : body.length + 2 - 1 = body.length + 1 := by omega
      rw [e, List.getD_append_right _ _ _ _ (by omega)]
      have e2 : body.length + 1 - body.length = 1 := by omega
      rw [e2]
      simp [crcLE]
    rw [ht, h1, h2]
    omega

set_option maxRecDepth 100000 in
/-- Witness for `tcp_delivery_no_crc_check`: a concrete envelope carrying
    the inner frame AA 55 is extracted from a 10-byte buffer and
    delivered. -/
theorem tcp_delivery_no_crc_check_witness :
    (tcp_drain [0x56, 0x4C, 1, 1, 2, 0, 0xAA, 0x55, 0xA0, 0xED]).1
        = tcp_inner [0x56, 0x4C, 1, 1, 2, 0, 0xAA, 0x55, 0xA0, 0xED]
          :: (tcp_drain []).1
    ∧ ∀ (bus_id : String) (frame : List Nat),
        outer_crc_valid (write_tcp_packet bus_id frame) :=
  tcp_delivery_no_crc_check [0x56, 0x4C, 1, 1, 2, 0, 0xAA, 0x55, 0xA0, 0xED]
    [0x56, 0x4C, 1, 1, 2, 0, 0xAA, 0x55, 0xA0, 0xED] [] (by decide)


/-! ## Direct-link framer (C5) -/

theorem getD_take_eq (l : List Nat) (k i : Nat) (h : i < k) :
    (l.take k).getD i 0 = l.getD i 0 := by
  rw [List.getD_eq_getElem?_getD, List.getD_eq_getElem?_getD, List.getElem?_take]
  simp [h]

theorem extract_one_frame_some_lt (buf : List Nat) :
    ∀ p b, extract_one_frame buf = (some p, b) → b.length < buf.length := by
  induction buf with
  | nil =>
    intro p b h
    simp [extract_one_frame] at h
  | cons x rest ih =>
    intro p b h
    unfold extract_one_frame at h
    split_ifs at h with h1 h2 h3
    · simp at h
    · simp at h
    · rw [Prod.mk.injEq] at h
      obtain ⟨-, hb⟩ := h
      rw [← hb, List.length_drop]
      simp only [List.length_cons] at h1 ⊢
      omega
    · exact Nat.lt_succ_of_lt (ih p b h)

theorem drain_frames_aux_congr (n : Nat) :
    ∀ (m : Nat) (buf : List Nat), buf.length ≤ n → buf.length ≤ m →
    drain_frames_aux n buf = drain_frames_aux m buf := by
  induction n with
  | zero =>
    intro m buf hn _
    have hb : buf = [] := List.length_eq_zero.1 (Nat.le_zero.1 hn)
    subst hb
    cases m with
    | zero => rfl
    | succ j => simp [drain_frames_aux, extract_one_frame]
  | succ k ih =>
    intro m buf hn hm
    cases m with
    | zero =>
      have hb : buf = [] := List.length_eq_zero.1 (Nat.le_zero.1 hm)
      subst hb
      simp [drain_frames_aux, extract_one_frame]
    | succ j =>
      unfold drain_frames_aux
      cases hx : extract_one_frame buf with
      | mk o b =>
        cases o with
        | none => rfl
        | some p =>
          have hlt := extract_one_frame_some_lt buf p b hx
          simp only
          rw [ih j b (by omega) (by omega)]

theorem drain_frames_cons (buf p rest : List Nat)
    (h : extract_one_frame buf = (some p, rest)) :
    drain_frames buf = (p :: (drain_frames rest).1, (drain_frames rest).2) := by
  cases buf with
  | nil => simp [extract_one_frame] at h
  | cons x t =>
    have hlt := extract_one_frame_some_lt (x :: t) p rest h
    show drain_frames_aux (x :: t).length (x :: t) = _
    rw [List.length_cons]
    unfold drain_frames_aux
    rw [h]
    simp only
    unfold drain_frames
    rw [drain_frames_aux_congr t.length rest.length rest
      (by simp only [List.length_cons] at hlt; omega) (le_refl _)]

theorem drain_aux_fst_none (fuel : Nat) (buf : List Nat)
    (h : (extract_one_frame buf).1 = none) :
    (drain_frames_aux fuel buf).1 = [] := by
  cases fuel with
  | zero => rfl
  | succ k =>
    unfold drain_frames_aux
    cases hx : extract_one_frame buf with
    | mk o b =>
      rw [hx] at h
      simp only at h
      subst h
      rfl

theorem extract_one_frame_cons_skip (a : Nat) (l : List Nat)
    (h8 : ¬((a :: l).length < 8)) (hno : ¬(a = 0xAA ∧ l.getD 0 0 = 0x55)) :
    extract_one_frame (a :: l) = extract_one_frame l := by
  conv_lhs => unfold extract_one_frame
  rw [if_neg h8, if_neg hno]

theorem extract_skip (g : List Nat) :
    ∀ (rest : List Nat), has_preamble g = false → rest.getD 0 0 = 0xAA →
    8 ≤ rest.length →
    extract_one_frame (g ++ rest) = extract_one_frame rest := by
  induction g with
  | nil =>
    intro rest _ _ _
    rfl
  | cons a g' ih =>
    intro rest hg hr0 hlen
    rw [List.cons_append]
    have h8 : ¬((a :: (g' ++ rest)).length < 8) := by
      simp only [List.length_cons, List.length_append]
      omega
    have hno : ¬(a = 0xAA ∧ (g' ++ rest).getD 0 0 = 0x55) := by
      cases g' with
      | nil =>
        rintro ⟨-, h55⟩
        rw [List.nil_append, hr0] at h55
        norm_num at h55
      | cons b g2 =>
        rintro ⟨haa, h55⟩
        rw [List.cons_append, List.getD_cons_zero] at h55
        unfold has_preamble at hg
        rw [Bool.or_eq_false_iff] at hg
        have hh := hg.1
        simp [haa, h55] at hh
    rw [extract_one_frame_cons_skip a _ h8 hno]
    refine ih rest ?_ hr0 hlen
    cases g' with
    | nil => rfl
    | cons b g2 =>
      unfold has_preamble at hg
      rw [Bool.or_eq_false_iff] at hg
      exact hg.2

theorem extract_frame (f rest : List Nat) (hf : valid_wire f) :
    extract_one_frame (f ++ rest) = (some f, rest) := by
  obtain ⟨hlen, h0, h1, h5⟩ := hf
  cases f with
  | nil => simp at hlen
  | cons x t =>
    rw [List.cons_append]
    have h8 : ¬((x :: (t ++ rest)).length < 8) := by
      simp only [List.length_cons, List.length_append]
      simp only [List.length_cons] at hlen
      omega
    have hx : x = 0xAA := by simpa using h0
    have ht0 : (t ++ rest).getD 0 0 = 0x55 := by
      rw [List.getD_append _ _ _ 0 (by simp only [List.length_cons] at hlen; omega)]
      simpa using h1
    have h5' : (x :: (t ++ rest)).getD 5 0 = (x :: t).length - 8 := by
      rw [List.getD_cons_succ,
        List.getD_append _ _ _ 4 (by simp only [List.length_cons] at hlen; omega)]
      simpa using h5
    conv_lhs => unfold extract_one_frame
    rw [if_neg h8, if_pos ⟨hx, ht0⟩, h5']
    have htot : 6 + ((x :: t).length - 8) + 2 = (x :: t).length := by
      simp only [List.length_cons] at hlen ⊢
      omega
    rw [htot]
    rw [if_neg (by simp only [List.length_cons, List.length_append]; omega)]
    rw [show (x :: (t ++ rest)) = (x :: t) ++ rest from rfl]
    rw [List.take_left, List.drop_left]

theorem extract_prefix_none (f : List Nat) (k : Nat) (hf : valid_wire f)
    (h8 : 8 ≤ k) (hk : k < f.length) :
    extract_one_frame (f.take k) = (none, f.take k) := by
  obtain ⟨hlen, h0, h1, h5⟩ := hf
  have htl : (f.take k).length = k := by
    rw [List.length_take]
    omega
  cases hc : f.take k with
  | nil =>
    rw [hc] at htl
    simp at htl
    omega
  | cons x t =>
    have h8' : ¬((x :: t).length < 8) := by
      rw [← hc, htl]
      omega
    have hx : x = 0xAA := by
      have h := getD_take_eq f k 0 (by omega)
      rw [hc] at h
      simp only [List.getD_cons_zero] at h
      rw [h, h0]
    have ht0 : t.getD 0 0 = 0x55 := by
      have h := getD_take_eq f k 1 (by omega)
      rw [hc] at h
      simp only [List.getD_cons_succ] at h
      rw [h, h1]
    have h5' : (x :: t).getD 5 0 = f.length - 8 := by
      have h := getD_take_eq f k 5 (by omega)
      rw [hc] at h
      rw [h, h5]
    conv_lhs => unfold extract_one_frame
    rw [if_neg h8', if_pos ⟨hx, ht0⟩, h5']
    rw [if_pos (by rw [← hc, htl]; omega)]

theorem extract_none_short (g : List Nat) :
    ∀ (rest : List Nat), has_preamble g = false →
    (rest = [] ∨ rest.getD 0 0 = 0xAA) → rest.length < 8 →
    (extract_one_frame (g ++ rest)).1 = none := by
  induction g with
  | nil =>
    intro rest _ _ hlen
    rw [List.nil_append]
    cases rest with
    | nil => rfl
    | cons r t =>
      unfold extract_one_frame
      rw [if_pos hlen]
  | cons a g' ih =>
    intro rest hg hr hlen
    rw [List.cons_append]
    by_cases h8 : (a :: (g' ++ rest)).length < 8
    · unfold extract_one_frame
      rw [if_pos h8]
    · have hno : ¬(a = 0xAA ∧ (g' ++ rest).getD 0 0 = 0x55) := by
        cases g' with
        | nil =>
          rintro ⟨-, h55⟩
          rw [List.nil_append] at h55
          rcases hr with hr | hr
          · subst hr
            simp at h55
          · rw [hr] at h55
            norm_num at h55
        | cons b g2 =>
          rintro ⟨haa, h55⟩
          rw [List.cons_append, List.getD_cons_zero] at h55
          unfold has_preamble at hg
          rw [Bool.or_eq_false_iff] at hg
          have hh := hg.1
          simp [haa, h55] at hh
      rw [extract_one_frame_cons_skip a _ h8 hno]
      refine ih rest ?_ hr hlen
      cases g' with
      | nil => rfl
      | cons b g2 =>
        unfold has_preamble at hg
        rw [Bool.or_eq_false_iff] at hg
        exact hg.2

/-- C5: when the stream consists of preamble-free garbage, one complete
    valid frame and a second complete valid frame back-to-back, the framer
    emits exactly those two frames in order with nothing left over; a
    stream cut anywhere before the first frame completes emits nothing
    (no partial frame); and whenever the residual buffer exceeds 512 bytes
    after extraction, the buffer is cleared entirely. -/
theorem framer_garbage_two_frames (g f1 f2 : List Nat)
    (hg : has_preamble g = false) (h1 : valid_wire f1) (h2 : valid_wire f2) :
    data_received [] (g ++ f1 ++ f2) = ([f1, f2], [])
    ∧ (∀ k, k < f1.length → (data_received [] (g ++ f1.take k)).1 = [])
    ∧ (∀ (buffer data : List Nat),
        512 < (drain_frames (buffer ++ data)).2.length →
        data_received buffer data = ((drain_frames (buffer ++ data)).1, [])) := by
  obtain ⟨hf1len, hf1a, hf1b, hf1c⟩ := h1
  have h1' : valid_wire f1 := ⟨hf1len, hf1a, hf1b, hf1c⟩
  have hext : extract_one_frame (g ++ (f1 ++ f2)) = (some f1, f2) := by
    rw [extract_skip g (f1 ++ f2) hg
      (by rw [List.getD_append _ _ _ 0 (by omega)]; exact hf1a)
      (by simp only [List.length_append]; omega)]
    exact extract_frame f1 f2 h1'
  have hext2 : extract_one_frame f2 = (some f2, []) := by
    have h := extract_frame f2 [] h2
    rwa [List.append_nil] at h
  refine ⟨?_, ?_, ?_⟩
  · unfold data_received
    rw [List.nil_append, List.append_assoc]
    rw [drain_frames_cons _ _ _ hext, drain_frames_cons _ _ _ hext2]
    rfl
  · intro k hk
    have hnone : (extract_one_frame (g ++ f1.take k)).1 = none := by
      by_cases h8 : 8 ≤ k
      · rw [extract_skip g (f1.take k) hg
          (by rw [getD_take_eq f1 k 0 (by omega)]; exact hf1a)
          (by rw [List.length_take]; omega)]
        rw [extract_prefix_none f1 k h1' h8 hk]
      · refine extract_none_short g (f1.take k) hg ?_ (by rw [List.length_take]; omega)
        rcases Nat.eq_zero_or_pos k with hz | hpos
        · left
          rw [hz, List.take_zero]
        · right
          rw [getD_take_eq f1 k 0 hpos]
          exact hf1a
    unfold data_received
    rw [List.nil_append]
    split_ifs with hsz
    · exact drain_aux_fst_none _ _ hnone
    · exact drain_aux_fst_none _ _ hnone
  · intro buffer data hsz
    unfold data_received
    rw [if_pos hsz]

set_option maxRecDepth 400000 in
/-- Witness for `framer_garbage_two_frames`: three garbage bytes followed
    by a valid empty-payload INPUT_CHANGE frame and a valid SET_OUTPUT
    frame yield exactly the two frames. -/
theorem framer_garbage_two_frames_witness :
    data_received []
        ([1, 2, 3] ++ build_frame 1 0x20 [] ++ build_frame 5 0x10 [2, 1])
      = ([build_frame 1 0x20 [], build_frame 5 0x10 [2, 1]], []) :=
  (framer_garbage_two_frames [1, 2, 3] (build_frame 1 0x20 [])
    (build_frame 5 0x10 [2, 1]) (by decide)
    (by unfold valid_wire; decide) (by unfold valid_wire; decide)).1

end Velolink
